import Mathlib

/-!
Verification of the TiledMapConverter core against its specification.

The Go sources are embedded shallowly: pure functions become Lean functions,
the scan loops become structural recursions over an explicit fuel equal to
the number of remaining iterations, Go slices become lists, Go uint32/uint8
values become Nat with explicit masking, Go int values become Int where
subtraction or negative intermediate values matter.  A Go runtime fault
(nil-pointer dereference or out-of-range slice index) is modelled by a
distinct `crash` outcome, kept apart from the error returns of the code.
-/

namespace TiledMapConverter

/-! ## Tile model (decoder.go) -/

def ENVIRONMENT_TILESET : Nat := 0
def DECORATION_TILESET : Nat := 1
def SPAWN_TILESET : Nat := 2

structure TileSet where
  type : Nat
  firstGid : Nat
  name : String
  tileWidth : Int
  tileHeight : Int
  tileCount : Nat
  deriving DecidableEq

structure Tile where
  index : Nat
  flags : Nat
  tileSet : Option TileSet
  deriving DecidableEq

instance : Inhabited Tile := ⟨⟨0, 0, none⟩⟩

def FlippedHorizontallyTiledFlag : Nat := 0x80000000
def FlippedVerticallyTiledFlag : Nat := 0x40000000
def FlippedDiagonallyTiledFlag : Nat := 0x20000000

def FIRST_DIAGONAL_TILE_TYPE : Nat := 6 * 8 + 1

inductive TileType where
  | completelyAccessible
  | completelySolid
  | solidAtUpperLeft
  | solidAtUpperRight
  | solidAtLowerLeft
  | solidAtLowerRight
  deriving DecidableEq

inductive Orientation where
  | left
  | right
  | up
  | down
  | upLeft
  | upRight
  | downLeft
  | downRight
  deriving DecidableEq

/-- The numeric value of the Go Orientation constant. -/
def Orientation.val : Orientation → Nat
  | .left => 0
  | .right => 1
  | .up => 2
  | .down => 3
  | .upLeft => 4
  | .upRight => 5
  | .downLeft => 6
  | .downRight => 7

def IsOrientationDiagonal (o : Orientation) : Bool :=
  Orientation.val .upLeft ≤ o.val

def GetInvertedOrientation : Orientation → Orientation
  | .left => .right
  | .right => .left
  | .up => .down
  | .down => .up
  | .upLeft => .downRight
  | .upRight => .downLeft
  | .downLeft => .upRight
  | .downRight => .upLeft

def Tile.IsCompletelyAccessible (t : Tile) : Bool := t.index == 0

def Tile.IsDiagonal (t : Tile) : Bool := decide (FIRST_DIAGONAL_TILE_TYPE ≤ t.index)

def Tile.IsCompletelySolid (t : Tile) : Bool :=
  !(t.IsCompletelyAccessible || t.IsDiagonal)

/-- The Go slice FlagLookupTable inside GetType. -/
def FlagLookupTable : List TileType :=
  [.solidAtUpperLeft, .solidAtUpperRight, .solidAtLowerLeft, .solidAtLowerRight,
   .solidAtLowerRight, .solidAtUpperRight, .solidAtLowerLeft, .solidAtUpperLeft]

/-- Tile.GetType.  The Go code indexes the slice at flags and 0x07, which is
below the length 8, so the getD default value is never used. -/
def Tile.GetType (t : Tile) : TileType :=
  if t.index = 0 then .completelyAccessible
  else if !t.IsDiagonal then .completelySolid
  else FlagLookupTable.getD (t.flags &&& 0x07) .completelyAccessible

/-- Tile.GetUpVector.  The final arm is unreachable: the masked value is
below 8 (the Go code panics there). -/
def Tile.GetUpVector (t : Tile) : Int × Int :=
  match t.flags &&& 0x07 with
  | 0 => (0, -1)
  | 1 => (-1, 0)
  | 2 => (1, 0)
  | 3 => (0, 1)
  | 4 => (0, 1)
  | 5 => (1, 0)
  | 6 => (-1, 0)
  | 7 => (0, -1)
  | _ => (0, 0)

def Tile.GetRightVector (t : Tile) : Int × Int :=
  match t.GetUpVector with
  | (x, y) => (-y, x)

/-- PopCount (decoder.go).  On the uint8 inputs the Go code uses, the
subtraction never wraps (the subtrahend is a bitwise selection of b shifted
right), so plain Nat subtraction is faithful. -/
def PopCount (b : Nat) : Nat :=
  let b1 := b - ((b >>> 1) &&& 0x55)
  let b2 := (b1 &&& 0x33) + ((b1 >>> 2) &&& 0x33)
  ((b2 + (b2 >>> 4)) &&& 0x0F) * 0x01

def Tile.IsMirrored (t : Tile) : Bool :=
  PopCount (t.flags &&& 0x07) % 2 == 1

def Tile.HasBorderTowards (t : Tile) (side : Orientation) : Bool :=
  match t.GetType with
  | .completelyAccessible => false
  | .completelySolid => !IsOrientationDiagonal side
  | .solidAtUpperLeft => side == .left || side == .up || side == .downRight
  | .solidAtUpperRight => side == .right || side == .up || side == .downLeft
  | .solidAtLowerLeft => side == .left || side == .down || side == .upRight
  | .solidAtLowerRight => side == .right || side == .down || side == .upLeft

/-- The free function HasBorderTowards of the border extractor: a shared
cardinal edge between a tile and its neighbour.  The Go code panics when the
side is diagonal; every caller passes a cardinal side. -/
def HasBorderTowards (tile neighbour : Tile) (tileSide : Orientation) : Bool :=
  if !tile.HasBorderTowards tileSide then false
  else if neighbour.HasBorderTowards (GetInvertedOrientation tileSide) then false
  else true

/-! ## TileMapLayer.GetTile (decoder.go) -/

inductive GetTileError where
  | invalidCoordinates
  | invalidMapSize
  deriving DecidableEq

/-- TileMapLayer.GetTile with idx = Y*MapWidth+X inlined.  Go returns the
zero tile together with the error; the two error messages are modelled as
tags. -/
def GetTile (tiles : List Tile) (X Y MapWidth MapHeight : Int) : Except GetTileError Tile :=
  if X < 0 ∨ X ≥ MapWidth ∨ Y < 0 ∨ Y ≥ MapHeight then .error .invalidCoordinates
  else if Y * MapWidth + X < 0 ∨ (tiles.length : Int) ≤ Y * MapWidth + X then
    .error .invalidMapSize
  else .ok (tiles.getD (Y * MapWidth + X).toNat default)

/-! ## Layer decoding (extractTiles, decoder.go) -/

inductive DecodeError where
  | tileCountMismatch
  | invalidTileNumber
  | unknownTileID
  deriving DecidableEq

inductive TokenOutcome where
  | ok (t : Tile)
  | error (e : DecodeError)
  | crash
  deriving DecidableEq

/-- The tileset resolution loop of extractTiles: walk the tileset list from
the front while the current firstGid does not exceed the id, keeping the last
tileset visited; none when even the first tileset has firstGid above the id
(in Go the tileSet pointer then stays nil). -/
def resolveTileSet (tilesets : List TileSet) (tileID : Nat) : Option TileSet :=
  match tilesets with
  | [] => none
  | ts :: rest =>
    if ts.firstGid ≤ tileID then
      match resolveTileSet rest tileID with
      | some r => some r
      | none => some ts
    else none

/-- One token of extractTiles, starting from the parsed uint32 value: split
off the three top flip bits, mask them away, bound the id by 24 bits, resolve
the tileset and range-check the id against it.  When the resolution loop
selects no tileset, the Go range check dereferences a nil pointer: crash. -/
def decodeTokenValue (tilesets : List TileSet) (value : Nat) : TokenOutcome :=
  let raw := value % 2 ^ 32
  let flags :=
    (if raw &&& FlippedHorizontallyTiledFlag ≠ 0 then 0x01 else 0) |||
    (if raw &&& FlippedVerticallyTiledFlag ≠ 0 then 0x02 else 0) |||
    (if raw &&& FlippedDiagonallyTiledFlag ≠ 0 then 0x04 else 0)
  let tileID := raw &&& 0x1FFFFFFF
  if tileID > 0xFFFFFF then .error .invalidTileNumber
  else if tileID > 0 then
    match resolveTileSet tilesets tileID with
    | none => .crash
    | some ts =>
      if ts.firstGid + ts.tileCount ≤ tileID then .error .unknownTileID
      else .ok ⟨tileID, flags, some ts⟩
  else .ok ⟨0, flags, none⟩

inductive ExtractTilesOutcome where
  | ok (tiles : List Tile)
  | error (e : DecodeError)
  | crash
  deriving DecidableEq

def extractTilesLoop (tilesets : List TileSet) : List Nat → ExtractTilesOutcome
  | [] => .ok []
  | v :: rest =>
    match decodeTokenValue tilesets v with
    | .ok t =>
      match extractTilesLoop tilesets rest with
      | .ok ts => .ok (t :: ts)
      | r => r
    | .error e => .error e
    | .crash => .crash

/-- extractTiles, taken from the numeric token values onward (the CSV
splitting and integer parsing happen upstream of the behaviour under
study). -/
def extractTiles (tilesets : List TileSet) (expectedTileCount : Nat)
    (values : List Nat) : ExtractTilesOutcome :=
  if values.length ≠ expectedTileCount then .error .tileCountMismatch
  else extractTilesLoop tilesets values

/-! ## ValidateTileMap and the encoded width -/

structure TileMapLayer where
  name : String
  tiles : List Tile
  deriving DecidableEq

structure TileMap where
  width : Int
  height : Int
  version : String
  orientation : String
  renderorder : String
  tilewidth : Int
  tileheight : Int
  tilesets : List TileSet
  layers : List TileMapLayer
  deriving DecidableEq

inductive ValidationError where
  | invalidWidth
  | invalidHeight
  | invalidOrientation
  | invalidRenderOrder
  | invalidTileSize
  | invalidLayerCount
  | noTileset
  deriving DecidableEq

/-- ValidateTileMap.  A version other than 1.0 only logs a warning.  The
layer-count condition reproduces the conjunction of the source, which can
never hold (length at most 0 and at least 256). -/
def ValidateTileMap (m : TileMap) : Option ValidationError :=
  if m.width ≤ 0 then some .invalidWidth
  else if m.height ≤ 0 then some .invalidHeight
  else if m.orientation ≠ "orthogonal" then some .invalidOrientation
  else if m.renderorder ≠ "right-down" then some .invalidRenderOrder
  else if m.tilewidth ≠ 256 ∨ m.tileheight ≠ 256 then some .invalidTileSize
  else if m.layers.length ≤ 0 ∧ m.layers.length ≥ 256 then some .invalidLayerCount
  else if m.tilesets.length ≤ 0 then some .noTileset
  else none

/-- The Go conversion int16(n): two's-complement truncation to 16 bits. -/
def int16ofInt (n : Int) : Int :=
  let r := n % 65536
  if r < 32768 then r else r - 65536

/-- The width field the encoder writes: Encode passes int16(tilemap.Width)
to binary.Write, which cannot fail for a fixed-width integer. -/
def encodedWidth (m : TileMap) : Int := int16ofInt m.width

/-! ## Spawn extraction (ExtractSpawnInfoFromLayer and GetTileMapping) -/

structure ResourcePoint where
  spawnX : Int
  spawnY : Int
  resourcePointFlags : Nat
  deriving DecidableEq

structure WaterdropSource where
  spawnX : Int
  spawnY : Int
  waterdropFlags : Nat
  deriving DecidableEq

inductive UnitType where
  | offense
  | defense
  | longRange
  | special
  | construction
  deriving DecidableEq

inductive BuildingType where
  | base
  | pump
  | factory
  | turret
  | bridge
  deriving DecidableEq

structure Unit where
  type : UnitType
  spawnX : Int
  spawnY : Int
  deriving DecidableEq

structure Building where
  type : BuildingType
  spawnX : Int
  spawnY : Int
  flags : Nat
  deriving DecidableEq

structure Player where
  buildings : List Building
  units : List Unit
  deriving DecidableEq

def NewPlayer : Player := ⟨[], []⟩

structure UnitMapping where
  player : Nat
  type : UnitType
  deriving DecidableEq

structure PlayerMapping where
  player : Nat
  deriving DecidableEq

structure BuildingMapping where
  type : BuildingType
  deriving DecidableEq

def resourceMapping : Nat := 173

def waterdropSpawnMapping : Nat := 177

/-- The per-player first tile index of the GetTileMapping loop. -/
def firstIdx (i : Nat) : Nat := 1 + i * 10 + (i / 2) * 20

/-- The unit mapping of GetTileMapping: the Go map is modelled as an
association list with the same (distinct) keys, looked up with
List.lookup. -/
def unitmapping : List (Nat × UnitMapping) :=
  (List.range 8).flatMap fun i =>
    [(firstIdx i + 0, ⟨i, .offense⟩),
     (firstIdx i + 2, ⟨i, .defense⟩),
     (firstIdx i + 4, ⟨i, .longRange⟩),
     (firstIdx i + 6, ⟨i, .special⟩),
     (firstIdx i + 8, ⟨i, .construction⟩)]

def playermapping : List (Nat × PlayerMapping) :=
  (List.range 8).map fun i => (firstIdx i + 9, ⟨i⟩)

def buildingmapping : List (Nat × BuildingMapping) :=
  [(162, ⟨.base⟩), (234, ⟨.pump⟩), (238, ⟨.turret⟩)]

inductive SpawnError where
  | unknownTileset
  | wrongTileset
  | mirroredResource
  | invalidUnitMapping
  | rotatedUnit
  | invalidPlayerMapping
  | mirroredBuilding
  | buildingTileUnknownTileset
  | buildingTileWrongTileset
  | inconsistentFlags
  | noBuildingMapping
  | noResourcePoints
  | unitsWithoutBase
  | buildingsWithoutBase
  | notEnoughPlayers
  deriving DecidableEq

structure ScanState where
  resources : List ResourcePoint
  waterdrops : List WaterdropSource
  players : List Player
  deriving DecidableEq

inductive ScanOutcome where
  | ok (st : ScanState)
  | error (e : SpawnError)
  | crash
  deriving DecidableEq

/-- The body of the scan loop of ExtractSpawnInfoFromLayer for the cell
(x, y).  The Go code indexes layer.Tiles twice without a bounds check: at
the cell itself (in range whenever the layer carries width times height
tiles) and, inside the player-token branch, at the adjacent cell
identY*width+identX, which can be outside the slice: crash. -/
def processSpawnTile (width : Nat) (tiles : List Tile) (x y : Nat)
    (st : ScanState) : ScanOutcome :=
  if tiles.length ≤ y * width + x then .crash
  else
    let tile := tiles.getD (y * width + x) default
    let tileID := tile.index
    let flags := tile.flags
    let tilesetCheck : Option SpawnError :=
      if tileID ≠ 0 then
        match tile.tileSet with
        | none => some .unknownTileset
        | some ts => if ts.type ≠ SPAWN_TILESET then some .wrongTileset else none
      else none
    match tilesetCheck with
    | some e => .error e
    | none =>
      if tileID = resourceMapping ∧ tile.IsMirrored then .error .mirroredResource
      else
        let st :=
          if tileID = resourceMapping then
            { st with resources := st.resources ++ [⟨x, y, flags⟩] }
          else st
        let st :=
          if tileID = waterdropSpawnMapping then
            { st with waterdrops := st.waterdrops ++ [⟨x, y, flags⟩] }
          else st
        match unitmapping.lookup tileID with
        | some m =>
          if 8 ≤ m.player then .error .invalidUnitMapping
          else if flags ≠ 0 then .error .rotatedUnit
          else
            let p := st.players.getD m.player NewPlayer
            let p' := { p with units := p.units ++ [⟨m.type, x, y⟩] }
            .ok { st with players := st.players.set m.player p' }
        | none =>
          match playermapping.lookup tileID with
          | some m =>
            if 8 ≤ m.player then .error .invalidPlayerMapping
            else if tile.IsMirrored then .error .mirroredBuilding
            else
              let v := tile.GetRightVector
              let identX : Int := (x : Int) + v.1
              let identY : Int := (y : Int) + v.2
              let bIdx : Int := identY * width + identX
              if bIdx < 0 ∨ (tiles.length : Int) ≤ bIdx then .crash
              else
                let buildingTile := tiles.getD bIdx.toNat default
                match buildingTile.tileSet with
                | none => .error .buildingTileUnknownTileset
                | some _ =>
                  match tile.tileSet with
                  | none => .crash
                  | some tokenTs =>
                    if tokenTs.type ≠ SPAWN_TILESET then .error .buildingTileWrongTileset
                    else if buildingTile.flags ≠ flags then .error .inconsistentFlags
                    else
                      match buildingmapping.lookup buildingTile.index with
                      | none => .error .noBuildingMapping
                      | some bm =>
                        let p := st.players.getD m.player NewPlayer
                        let p' := { p with buildings := p.buildings ++ [⟨bm.type, x, y, flags⟩] }
                        .ok { st with players := st.players.set m.player p' }
          | none => .ok st

def scanSpawnLoop (width : Nat) (tiles : List Tile) :
    List (Nat × Nat) → ScanState → ScanOutcome
  | [], st => .ok st
  | (x, y) :: rest, st =>
    match processSpawnTile width tiles x y st with
    | .ok st' => scanSpawnLoop width tiles rest st'
    | .error e => .error e
    | .crash => .crash

/-- The cell order of the scan: y outer, x inner. -/
def rowMajorPositions (width height : Nat) : List (Nat × Nat) :=
  (List.range height).flatMap fun y => (List.range width).map fun x => (x, y)

def initialPlayers : List Player := List.replicate 8 NewPlayer

/-- The scan phase of ExtractSpawnInfoFromLayer. -/
def scanSpawnLayer (width height : Nat) (tiles : List Tile) : ScanOutcome :=
  scanSpawnLoop width tiles (rowMajorPositions width height) ⟨[], [], initialPlayers⟩

def baseBuildingCount (p : Player) : Nat :=
  (p.buildings.filter fun b => b.type == BuildingType.base).length

/-- The per-player reduction of the validate-and-reduce pass: a player
without a base building must have no units and no buildings and is dropped;
a player with a base building is kept (more than one base building only
logs a warning). -/
def reducePlayers : List Player → Except SpawnError (List Player)
  | [] => .ok []
  | p :: rest =>
    if baseBuildingCount p ≤ 0 then
      if p.units.length ≠ 0 then .error .unitsWithoutBase
      else if p.buildings.length ≠ 0 then .error .buildingsWithoutBase
      else reducePlayers rest
    else
      match reducePlayers rest with
      | .error e => .error e
      | .ok l => .ok (p :: l)

inductive ExtractOutcome where
  | ok (resources : List ResourcePoint) (waterdrops : List WaterdropSource)
      (players : List Player)
  | error (e : SpawnError)
  | crash
  deriving DecidableEq

/-- The validate-and-reduce pass at the end of ExtractSpawnInfoFromLayer. -/
def validateAndReduce (resources : List ResourcePoint)
    (waterdrops : List WaterdropSource) (players : List Player) : ExtractOutcome :=
  if resources.length < 1 then .error .noResourcePoints
  else
    match reducePlayers players with
    | .error e => .error e
    | .ok actual =>
      if actual.length ≤ 1 then .error .notEnoughPlayers
      else .ok resources waterdrops actual

def ExtractSpawnInfoFromLayer (width height : Nat) (tiles : List Tile) : ExtractOutcome :=
  match scanSpawnLayer width height tiles with
  | .ok st => validateAndReduce st.resources st.waterdrops st.players
  | .error e => .error e
  | .crash => .crash

/-! ## Border extraction (ComputeBorderOfLayer) -/

structure BorderLine where
  startX : Int
  startY : Int
  length : Int
  deriving DecidableEq

structure SortedBorderLines where
  left : List BorderLine
  right : List BorderLine
  up : List BorderLine
  down : List BorderLine
  upLeft : List BorderLine
  upRight : List BorderLine
  downLeft : List BorderLine
  downRight : List BorderLine
  deriving DecidableEq

/-- Tile lookup of the border sweeps.  ComputeBorderOfLayer reads tiles
through layer.GetTile at coordinates that always lie inside the grid, where
GetTile cannot fail (GetTile_ok_of_inbounds below), so the sweeps are
modelled over a total lookup. -/
def tileAt (tiles : List Tile) (width x y : Nat) : Tile :=
  tiles.getD (y * width + x) default

/-- The predicate of the upwards-facing horizontal run at scan line y:
a shared cardinal edge between the cell (x, y) and the cell above it, with
the outer-ring guard x not equal to width-1 of the source. -/
def upwardsPred (tiles : List Tile) (width y x : Nat) : Bool :=
  HasBorderTowards (tileAt tiles width x y) (tileAt tiles width x (y - 1)) .up
    && x != width - 1

def downwardsPred (tiles : List Tile) (width y x : Nat) : Bool :=
  HasBorderTowards (tileAt tiles width x (y - 1)) (tileAt tiles width x y) .down
    && x != width - 1

def leftPred (tiles : List Tile) (width height x y : Nat) : Bool :=
  HasBorderTowards (tileAt tiles width x y) (tileAt tiles width (x - 1) y) .left
    && y != height - 1

def rightPred (tiles : List Tile) (width height x y : Nat) : Bool :=
  HasBorderTowards (tileAt tiles width (x - 1) y) (tileAt tiles width x y) .right
    && y != height - 1

structure HorizontalSweepState where
  upwardsBorderStart : Option Nat
  downwardsBorderStart : Option Nat
  right : List BorderLine
  left : List BorderLine
  deriving DecidableEq

/-- One iteration of the inner loop of the horizontal sweep at cell (x, y):
the upwards-facing run feeds the Right bucket (start at the run begin), the
downwards-facing run feeds the Left bucket (start at the run end). -/
def horizontalStep (tiles : List Tile) (width y x : Nat)
    (st : HorizontalSweepState) : HorizontalSweepState :=
  let st1 :=
    if upwardsPred tiles width y x then
      match st.upwardsBorderStart with
      | none => { st with upwardsBorderStart := some x }
      | some _ => st
    else
      match st.upwardsBorderStart with
      | none => st
      | some b =>
        { st with
          right := st.right ++ [⟨(b : Int), (y : Int), (x : Int) - (b : Int)⟩],
          upwardsBorderStart := none }
  if downwardsPred tiles width y x then
    match st1.downwardsBorderStart with
    | none => { st1 with downwardsBorderStart := some x }
    | some _ => st1
  else
    match st1.downwardsBorderStart with
    | none => st1
    | some b =>
      { st1 with
        left := st1.left ++ [⟨(x : Int), (y : Int), (x : Int) - (b : Int)⟩],
        downwardsBorderStart := none }

/-- The inner loop of the horizontal sweep: fuel iterations starting at x. -/
def horizontalScan (tiles : List Tile) (width y : Nat) :
    Nat → Nat → HorizontalSweepState → HorizontalSweepState
  | 0, _, st => st
  | fuel + 1, x, st =>
    horizontalScan tiles width y fuel (x + 1) (horizontalStep tiles width y x st)

/-- One scan line of the horizontal sweep: x runs from 1 while x < width;
the per-line run state starts out empty. -/
def horizontalLine (tiles : List Tile) (width y : Nat)
    (st : HorizontalSweepState) : HorizontalSweepState :=
  horizontalScan tiles width y (width - 1) 1
    { st with upwardsBorderStart := none, downwardsBorderStart := none }

/-- The outer loop of the horizontal sweep: fuel scan lines starting at y. -/
def horizontalSweep (tiles : List Tile) (width : Nat) :
    Nat → Nat → HorizontalSweepState → HorizontalSweepState
  | 0, _, st => st
  | fuel + 1, y, st =>
    horizontalSweep tiles width fuel (y + 1) (horizontalLine tiles width y st)

structure VerticalSweepState where
  leftBorderStart : Option Nat
  rightBorderStart : Option Nat
  up : List BorderLine
  down : List BorderLine
  deriving DecidableEq

/-- One iteration of the inner loop of the vertical sweep at cell (x, y):
the left-facing run feeds the Up bucket (start at the run end), the
right-facing run feeds the Down bucket (start at the run begin). -/
def verticalStep (tiles : List Tile) (width height x y : Nat)
    (st : VerticalSweepState) : VerticalSweepState :=
  let st1 :=
    if leftPred tiles width height x y then
      match st.leftBorderStart with
      | none => { st with leftBorderStart := some y }
      | some _ => st
    else
      match st.leftBorderStart with
      | none => st
      | some b =>
        { st with
          up := st.up ++ [⟨(x : Int), (y : Int), (y : Int) - (b : Int)⟩],
          leftBorderStart := none }
  if rightPred tiles width height x y then
    match st1.rightBorderStart with
    | none => { st1 with rightBorderStart := some y }
    | some _ => st1
  else
    match st1.rightBorderStart with
    | none => st1
    | some b =>
      { st1 with
        down := st1.down ++ [⟨(x : Int), (b : Int), (y : Int) - (b : Int)⟩],
        rightBorderStart := none }

def verticalScan (tiles : List Tile) (width height x : Nat) :
    Nat → Nat → VerticalSweepState → VerticalSweepState
  | 0, _, st => st
  | fuel + 1, y, st =>
    verticalScan tiles width height x fuel (y + 1) (verticalStep tiles width height x y st)

def verticalLine (tiles : List Tile) (width height x : Nat)
    (st : VerticalSweepState) : VerticalSweepState :=
  verticalScan tiles width height x (height - 1) 1
    { st with leftBorderStart := none, rightBorderStart := none }

def verticalSweep (tiles : List Tile) (width height : Nat) :
    Nat → Nat → VerticalSweepState → VerticalSweepState
  | 0, _, st => st
  | fuel + 1, x, st =>
    verticalSweep tiles width height fuel (x + 1) (verticalLine tiles width height x st)

structure DiagonalNWSEState where
  upRightBorderStart : Option Nat
  downLeftBorderStart : Option Nat
  downRight : List BorderLine
  upLeft : List BorderLine
  deriving DecidableEq

/-- One iteration of a NW-to-SE diagonal at offset i from the origin
(fx, fy): a SolidAtLowerLeft tile extends the run feeding the DownRight
bucket, a SolidAtUpperRight tile the run feeding the UpLeft bucket.  The
outer-ring warning of the source has no effect on the data. -/
def diagonalNWSEStep (tiles : List Tile) (width fx fy i : Nat)
    (st : DiagonalNWSEState) : DiagonalNWSEState :=
  let tile := tileAt tiles width (fx + i) (fy + i)
  let st1 :=
    if tile.GetType == .solidAtLowerLeft then
      match st.upRightBorderStart with
      | none => { st with upRightBorderStart := some i }
      | some _ => st
    else
      match st.upRightBorderStart with
      | none => st
      | some b =>
        { st with
          downRight := st.downRight ++
            [⟨(fx : Int) + b, (fy : Int) + b, (i : Int) - (b : Int)⟩],
          upRightBorderStart := none }
  if tile.GetType == .solidAtUpperRight then
    match st1.downLeftBorderStart with
    | none => { st1 with downLeftBorderStart := some i }
    | some _ => st1
  else
    match st1.downLeftBorderStart with
    | none => st1
    | some b =>
      { st1 with
        upLeft := st1.upLeft ++
          [⟨(fx : Int) + i, (fy : Int) + i, (i : Int) - (b : Int)⟩],
        downLeftBorderStart := none }

/-- The inner loop of a NW-to-SE diagonal: the source breaks after the last
cell of the diagonal without flushing a pending run. -/
def diagonalNWSEScan (tiles : List Tile) (width fx fy : Nat) :
    Nat → Nat → DiagonalNWSEState → DiagonalNWSEState
  | 0, _, st => st
  | fuel + 1, i, st =>
    diagonalNWSEScan tiles width fx fy fuel (i + 1) (diagonalNWSEStep tiles width fx fy i st)

def diagonalNWSELine (tiles : List Tile) (width height d : Nat)
    (st : DiagonalNWSEState) : DiagonalNWSEState :=
  let fx := if d < width then d else 0
  let fy := if d < width then 0 else d - width + 1
  diagonalNWSEScan tiles width fx fy (min (width - fx) (height - fy)) 0
    { st with upRightBorderStart := none, downLeftBorderStart := none }

def diagonalNWSESweep (tiles : List Tile) (width height : Nat) :
    Nat → Nat → DiagonalNWSEState → DiagonalNWSEState
  | 0, _, st => st
  | fuel + 1, d, st =>
    diagonalNWSESweep tiles width height fuel (d + 1) (diagonalNWSELine tiles width height d st)

structure DiagonalSWNEState where
  upLeftBorderStart : Option Nat
  downRightBorderStart : Option Nat
  upRight : List BorderLine
  downLeft : List BorderLine
  deriving DecidableEq

/-- One iteration of a SW-to-NE diagonal at offset i from the origin
(fx, fy), visiting the cell (fx + i, fy - i): a SolidAtLowerRight tile
extends the run feeding the UpRight bucket, a SolidAtUpperLeft tile the run
feeding the DownLeft bucket. -/
def diagonalSWNEStep (tiles : List Tile) (width fx fy i : Nat)
    (st : DiagonalSWNEState) : DiagonalSWNEState :=
  let tile := tileAt tiles width (fx + i) (fy - i)
  let st1 :=
    if tile.GetType == .solidAtLowerRight then
      match st.upLeftBorderStart with
      | none => { st with upLeftBorderStart := some i }
      | some _ => st
    else
      match st.upLeftBorderStart with
      | none => st
      | some b =>
        { st with
          upRight := st.upRight ++
            [⟨(fx : Int) + b, (fy : Int) - b + 1, (i : Int) - (b : Int)⟩],
          upLeftBorderStart := none }
  if tile.GetType == .solidAtUpperLeft then
    match st1.downRightBorderStart with
    | none => { st1 with downRightBorderStart := some i }
    | some _ => st1
  else
    match st1.downRightBorderStart with
    | none => st1
    | some b =>
      { st1 with
        downLeft := st1.downLeft ++
          [⟨(fx : Int) + i, (fy : Int) - i + 1, (i : Int) - (b : Int)⟩],
        downRightBorderStart := none }

def diagonalSWNEScan (tiles : List Tile) (width fx fy : Nat) :
    Nat → Nat → DiagonalSWNEState → DiagonalSWNEState
  | 0, _, st => st
  | fuel + 1, i, st =>
    diagonalSWNEScan tiles width fx fy fuel (i + 1) (diagonalSWNEStep tiles width fx fy i st)

def diagonalSWNELine (tiles : List Tile) (width height d : Nat)
    (st : DiagonalSWNEState) : DiagonalSWNEState :=
  let fx := if d < width then d else 0
  let fy := if d < width then height - 1 else d - width
  diagonalSWNEScan tiles width fx fy (min (width - fx) (fy + 1)) 0
    { st with upLeftBorderStart := none, downRightBorderStart := none }

def diagonalSWNESweep (tiles : List Tile) (width height : Nat) :
    Nat → Nat → DiagonalSWNEState → DiagonalSWNEState
  | 0, _, st => st
  | fuel + 1, d, st =>
    diagonalSWNESweep tiles width height fuel (d + 1) (diagonalSWNELine tiles width height d st)

/-- ComputeBorderOfLayer: the horizontal sweep over the scan lines y in
[1, height), the vertical sweep over the scan columns x in [1, width), and
the two diagonal sweep families over the width + height - 1 diagonals. -/
def ComputeBorderOfLayer (width height : Nat) (tiles : List Tile) : SortedBorderLines :=
  let h := horizontalSweep tiles width (height - 1) 1 ⟨none, none, [], []⟩
  let v := verticalSweep tiles width height (width - 1) 1 ⟨none, none, [], []⟩
  let d1 := diagonalNWSESweep tiles width height (width + height - 1) 0 ⟨none, none, [], []⟩
  let d2 := diagonalSWNESweep tiles width height (width + height - 1) 0 ⟨none, none, [], []⟩
  ⟨h.left, h.right, v.up, v.down, d1.upLeft, d2.upRight, d2.downLeft, d1.downRight⟩

/-! ## Maximal runs: the reference description of the cardinal sweeps

The inner loop of every cardinal sweep is an instance of one shape: walk an
index over a predicate, remember where the current run began, and emit one
pair (run begin, run end) each time the predicate turns false.  collect is
that shape with the emitted pairs kept abstract; IsMaximalRun is the
specification-side description of a maximal run, written from the words of
the specification. -/

def collect (p : Nat → Bool) : Nat → Nat → Option Nat → List (Nat × Nat)
  | 0, _, _ => []
  | fuel + 1, x, pending =>
    if p x then collect p fuel (x + 1) (some (pending.getD x))
    else
      match pending with
      | none => collect p fuel (x + 1) none
      | some b => (b, x) :: collect p fuel (x + 1) none

/-- Modelled from the spec: a maximal run of the predicate p with the
half-open index interval from b to e, inside the scanned interval from lo
(inclusive) to hi (exclusive): p holds on all of [b, e), fails at e, and the
run cannot be extended to the left. -/
def IsMaximalRun (p : Nat → Bool) (lo hi b e : Nat) : Prop :=
  lo ≤ b ∧ b < e ∧ e < hi ∧ (∀ i, b ≤ i → i < e → p i = true) ∧ p e = false ∧
    (b = lo ∨ p (b - 1) = false)

/-- The invariant carried by the pending run begin of collect. -/
def pendingInv (p : Nat → Bool) (x : Nat) : Option Nat → Prop
  | none => True
  | some b => b < x ∧ ∀ i, b ≤ i → i < x → p i = true

/-- Where a run collected from position x with the given pending state can
begin. -/
def runStart (p : Nat → Bool) (x : Nat) (pending : Option Nat) (b : Nat) : Prop :=
  match pending with
  | none => x ≤ b ∧ (b = x ∨ p (b - 1) = false)
  | some b0 => b = b0 ∨ (x ≤ b ∧ p (b - 1) = false)

/-! ## Concrete inputs used by the evaluated claims -/

def environmentTileSetEx : TileSet :=
  ⟨ENVIRONMENT_TILESET, 10, "environment", 256, 256, 5⟩

def spawnTileSetEx : TileSet := ⟨SPAWN_TILESET, 1, "spawn", 256, 256, 300⟩

def spawnTileSet49 : TileSet := ⟨SPAWN_TILESET, 49, "spawn", 256, 256, 300⟩

/-- An otherwise well-formed map whose width is 40000. -/
def mapWidth40000 : TileMap :=
  { width := 40000
    height := 8
    version := "1.0"
    orientation := "orthogonal"
    renderorder := "right-down"
    tilewidth := 256
    tileheight := 256
    tilesets := [⟨ENVIRONMENT_TILESET, 1, "environment", 256, 256, 48⟩]
    layers := [⟨"environment", []⟩] }

/-- A 2 by 2 spawn layer whose only content is the player-0 token (tile id
10, flags 0) in the bottom-right corner: its right-vector (1, 0) points off
the grid. -/
def tokenCornerLayer : List Tile :=
  [default, default, default, ⟨10, 0, some spawnTileSetEx⟩]

/-- A 3 by 3 environment layer whose only content is a SolidAtLowerLeft
diagonal tile (index 49, flags 2) in the top-left corner of the outer
ring. -/
def diagonalCornerLayer : List Tile :=
  [⟨49, 2, some ⟨ENVIRONMENT_TILESET, 1, "environment", 256, 256, 300⟩⟩,
   default, default, default, default, default, default, default, default]

/-- A 3 by 3 environment layer with one completely solid tile in the
centre. -/
def solidCenterLayer : List Tile :=
  [default, default, default,
   default, ⟨1, 0, some ⟨ENVIRONMENT_TILESET, 1, "environment", 256, 256, 300⟩⟩, default,
   default, default, default]

/-- Modelled from the spec: the tile-id offset of each unit type above the
per-player base index. -/
def unitOffset : UnitType → Nat
  | .offense => 0
  | .defense => 2
  | .longRange => 4
  | .special => 6
  | .construction => 8

/-! # Theorems -/

/-! ## C10: totality of GetTile -/

/-- C10: for a layer whose tile array has exactly MapWidth times MapHeight
entries, GetTile returns the invalid-coordinates error exactly when X or Y
lies outside the grid, and otherwise returns the tile stored at index
Y*MapWidth+X; in particular the index is then inside the array, so the
second error branch never fires and no out-of-bounds access occurs. -/
theorem GetTile_total (tiles : List Tile) (MapWidth MapHeight X Y : Int)
    (hlen : (tiles.length : Int) = MapWidth * MapHeight) :
    (X < 0 ∨ X ≥ MapWidth ∨ Y < 0 ∨ Y ≥ MapHeight →
      GetTile tiles X Y MapWidth MapHeight = .error .invalidCoordinates) ∧
    (0 ≤ X → X < MapWidth → 0 ≤ Y → Y < MapHeight →
      GetTile tiles X Y MapWidth MapHeight =
        .ok (tiles.getD (Y * MapWidth + X).toNat default)) := by
  constructor
  · intro h
    unfold GetTile
    rw [if_pos h]
  · intro h1 h2 h3 h4
    have hout : ¬(X < 0 ∨ X ≥ MapWidth ∨ Y < 0 ∨ Y ≥ MapHeight) := by omega
    have hW : 0 < MapWidth := by omega
    have hmul : Y * MapWidth ≤ (MapHeight - 1) * MapWidth :=
      mul_le_mul_of_nonneg_right (by omega) (by omega)
    have hidx : ¬(Y * MapWidth + X < 0 ∨ (tiles.length : Int) ≤ Y * MapWidth + X) := by
      push_neg
      constructor
      · have : 0 ≤ Y * MapWidth := mul_nonneg h3 (le_of_lt hW)
        omega
      · rw [hlen]
        nlinarith
    unfold GetTile
    rw [if_neg hout, if_neg hidx]

/-- Witness for GetTile_total at the one-cell layer. -/
theorem GetTile_total_witness :
    GetTile [default] 0 0 1 1 =
      .ok (([default] : List Tile).getD ((0 : Int) * 1 + 0).toNat default) :=
  (GetTile_total [default] 1 1 0 0 (by decide)).2 (by decide) (by decide)
    (by decide) (by decide)

/-! ## C1: tileset resolution of layer decoding -/

/-- C1: evaluating layer decoding at explicit tokens against the single
tileset with firstGid 10 and tileCount 5.  A token whose masked id 12 lies
in the range resolves to that tileset; a token whose masked id 15 lies above
every range yields the error return; but a token whose masked id 3 lies
below the smallest firstGid leaves the resolution loop without a tileset and
the Go range check dereferences a nil pointer (a runtime fault, not an error
return), against the claim. -/
theorem extractTiles_id_below_min_gid_crashes :
    extractTiles [environmentTileSetEx] 1 [3] = .crash ∧
    extractTiles [environmentTileSetEx] 1 [12] =
      .ok [⟨12, 0, some environmentTileSetEx⟩] ∧
    extractTiles [environmentTileSetEx] 1 [15] = .error .unknownTileID := by
  decide

/-! ## C2: width 40000 passes validation and is truncated -/

/-- C2: the conversion does not reject a map of width 40000: ValidateTileMap
accepts it (the width check is only width above 0, with no upper bound), and
the encoder writes int16(40000) = -25536, a silent two's-complement
truncation rather than a range-gated error, against the claim. -/
theorem validate_accepts_width_40000 :
    ValidateTileMap mapWidth40000 = none ∧
    encodedWidth mapWidth40000 = -25536 ∧
    encodedWidth mapWidth40000 ≠ mapWidth40000.width := by
  decide

/-! ## C3: player token whose right-vector points off the grid -/

/-- C3: evaluating the spawn extraction on a 2 by 2 layer whose only content
is a player token at (1, 1) with flags 0: the right-vector (1, 0) points off
the grid, the unchecked adjacent-cell index 1*2+2 = 4 equals the tile-array
length, and the Go code panics with an out-of-range slice index instead of
returning the fatal error the claim describes. -/
theorem spawn_token_at_corner_crashes :
    ExtractSpawnInfoFromLayer 2 2 tokenCornerLayer = .crash := by
  decide

/-! ## C4: the spawn classification reads the global id -/

/-- C4 counterexample: with the spawn tileset at firstGid 49, the tile whose
id local to the tileset is 173 (stored global id 222, or 221 under the
one-based local convention) is not classified as a resource point, while the
tile with stored global id 173 (local id 124) is: the classification is not
a function of the local id and depends on firstGid, against the claim. -/
theorem spawn_classification_not_local :
    scanSpawnLayer 1 1 [⟨222, 0, some spawnTileSet49⟩] = .ok ⟨[], [], initialPlayers⟩ ∧
    (222 : Nat) - spawnTileSet49.firstGid = 173 ∧
    scanSpawnLayer 1 1 [⟨221, 0, some spawnTileSet49⟩] = .ok ⟨[], [], initialPlayers⟩ ∧
    (221 : Nat) - spawnTileSet49.firstGid + 1 = 173 ∧
    scanSpawnLayer 1 1 [⟨173, 0, some spawnTileSet49⟩] =
      .ok ⟨[⟨0, 0, 0⟩], [], initialPlayers⟩ ∧
    (173 : Nat) - spawnTileSet49.firstGid ≠ 173 := by
  decide

/-- A lookup hit in an association list is a member of the list. -/
theorem lookup_mem {α : Type} {l : List (Nat × α)} {k : Nat} {v : α}
    (h : l.lookup k = some v) : (k, v) ∈ l := by
  induction l with
  | nil => simp [List.lookup] at h
  | cons a rest ih =>
    obtain ⟨ka, va⟩ := a
    rw [List.lookup] at h
    cases hk : (k == ka) with
    | true =>
      rw [hk] at h
      simp at h
      subst h
      have : k = ka := by simpa using hk
      subst this
      exact List.mem_cons_self _ _
    | false =>
      rw [hk] at h
      exact List.mem_cons_of_mem _ (ih h)

/-- The members of the unit mapping list. -/
theorem mem_unitmapping {k : Nat} {m : UnitMapping} :
    (k, m) ∈ unitmapping ↔
      ∃ i, i < 8 ∧
        ((k = firstIdx i ∧ m = ⟨i, .offense⟩) ∨
         (k = firstIdx i + 2 ∧ m = ⟨i, .defense⟩) ∨
         (k = firstIdx i + 4 ∧ m = ⟨i, .longRange⟩) ∨
         (k = firstIdx i + 6 ∧ m = ⟨i, .special⟩) ∨
         (k = firstIdx i + 8 ∧ m = ⟨i, .construction⟩)) := by
  simp [unitmapping, List.mem_flatMap, List.mem_range, Prod.ext_iff]

/-- The members of the player-token mapping list. -/
theorem mem_playermapping {k : Nat} {m : PlayerMapping} :
    (k, m) ∈ playermapping ↔ ∃ i, i < 8 ∧ k = firstIdx i + 9 ∧ m = ⟨i⟩ := by
  simp only [playermapping, List.mem_map, List.mem_range, Prod.ext_iff]
  constructor
  · rintro ⟨i, hi, h1, h2⟩
    exact ⟨i, hi, h1.symm, h2.symm⟩
  · rintro ⟨i, hi, h1, h2⟩
    exact ⟨i, hi, h1.symm, h2.symm⟩

/-- C4 (amended): the spawn classification is keyed on the stored
(flag-masked, tileset-global) tile id: the id is a unit of player p of the
given type exactly when it equals 1 + 10p + (p div 2)*20 plus the offset of
that type (0, 2, 4, 6, 8), a player token exactly when it equals that base
plus 9, a resource point exactly when it equals 173, and a water-drop source
exactly when it equals 177; through the stored global id the classification
depends on the first gid of the spawn tileset. -/
theorem spawn_tile_classification (id : Nat) :
    (id = resourceMapping ↔ id = 173) ∧
    (id = waterdropSpawnMapping ↔ id = 177) ∧
    (∀ m : UnitMapping, unitmapping.lookup id = some m ↔
      (m.player ≤ 7 ∧ id = 1 + 10 * m.player + m.player / 2 * 20 + unitOffset m.type)) ∧
    (∀ m : PlayerMapping, playermapping.lookup id = some m ↔
      (m.player ≤ 7 ∧ id = 1 + 10 * m.player + m.player / 2 * 20 + 9)) := by
  refine ⟨Iff.rfl, Iff.rfl, ?_, ?_⟩
  · intro m
    constructor
    · intro h
      have hmem := lookup_mem h
      rw [mem_unitmapping] at hmem
      obtain ⟨i, hi, hc⟩ := hmem
      rcases hc with ⟨hk, hm⟩ | ⟨hk, hm⟩ | ⟨hk, hm⟩ | ⟨hk, hm⟩ | ⟨hk, hm⟩ <;>
        subst hm <;> simp only [unitOffset, firstIdx] at * <;> omega
    · rintro ⟨hp, hid⟩
      obtain ⟨p, ty⟩ := m
      simp only at hp hid
      subst hid
      interval_cases p <;> cases ty <;> decide
  · intro m
    constructor
    · intro h
      have hmem := lookup_mem h
      rw [mem_playermapping] at hmem
      obtain ⟨i, hi, hk, hm⟩ := hmem
      subst hm
      simp only [firstIdx] at *
      omega
    · rintro ⟨hp, hid⟩
      obtain ⟨p⟩ := m
      simp only at hp hid
      subst hid
      interval_cases p <;> decide

/-- A player list in which every base-less player is empty reduces to the
filter of the players owning a base building. -/
theorem reducePlayers_ok (l : List Player)
    (h : ∀ p ∈ l, baseBuildingCount p = 0 → p.units = [] ∧ p.buildings = []) :
    reducePlayers l = .ok (l.filter fun p => decide (0 < baseBuildingCount p)) := by
  induction l with
  | nil => rfl
  | cons p rest ih =>
    have hrest : ∀ q ∈ rest, baseBuildingCount q = 0 → q.units = [] ∧ q.buildings = [] :=
      fun q hq => h q (List.mem_cons_of_mem _ hq)
    rw [List.filter_cons]
    by_cases hb : baseBuildingCount p = 0
    · obtain ⟨hu, hbd⟩ := h p (List.mem_cons_self _ _) hb
      have hd : (decide (0 < baseBuildingCount p)) = false := by simp [hb]
      rw [hd]
      simp only [reducePlayers]
      rw [if_pos (by omega), if_neg (by simp [hu]), if_neg (by simp [hbd])]
      exact ih hrest
    · have hd : (decide (0 < baseBuildingCount p)) = true := by
        simp only [decide_eq_true_eq]
        omega
      rw [hd]
      simp only [reducePlayers]
      rw [if_neg (by omega), ih hrest]
      simp

/-- A player list containing a base-less player with a unit or a building
makes the reduction fail. -/
theorem reducePlayers_error (l : List Player)
    (h : ∃ p ∈ l, baseBuildingCount p = 0 ∧ (p.units ≠ [] ∨ p.buildings ≠ [])) :
    ∃ e, reducePlayers l = .error e := by
  induction l with
  | nil => simp at h
  | cons p rest ih =>
    simp only [reducePlayers]
    by_cases hb : baseBuildingCount p ≤ 0
    · rw [if_pos hb]
      by_cases hu : p.units.length ≠ 0
      · rw [if_pos hu]
        exact ⟨_, rfl⟩
      · rw [if_neg hu]
        by_cases hbd : p.buildings.length ≠ 0
        · rw [if_pos hbd]
          exact ⟨_, rfl⟩
        · rw [if_neg hbd]
          apply ih
          push_neg at hu hbd
          rw [List.length_eq_zero] at hu hbd
          rcases h with ⟨q, hq, hq0, hbad⟩
          rcases List.mem_cons.mp hq with rfl | hq'
          · rcases hbad with hbad | hbad
            · exact absurd hu hbad
            · exact absurd hbd hbad
          · exact ⟨q, hq', hq0, hbad⟩
    · rw [if_neg hb]
      have hrest : ∃ q ∈ rest, baseBuildingCount q = 0 ∧ (q.units ≠ [] ∨ q.buildings ≠ []) := by
        rcases h with ⟨q, hq, hq0, hbad⟩
        rcases List.mem_cons.mp hq with rfl | hq'
        · exact absurd hq0 (by omega)
        · exact ⟨q, hq', hq0, hbad⟩
      rcases ih hrest with ⟨e, he⟩
      rw [he]
      exact ⟨e, rfl⟩

/-- C7: in the validate-and-reduce pass (given at least one resource point),
a player slot without a base building but with a unit or a building makes
the extraction fail; when every base-less slot is empty, the base-less slots
are dropped, every slot with at least one base building is kept as a live
player (several base buildings only warn), and the pass fails exactly when
fewer than two live players remain. -/
theorem spawn_post_pass_validation (resources : List ResourcePoint)
    (waterdrops : List WaterdropSource) (players : List Player)
    (hres : resources ≠ []) :
    ((∃ p ∈ players, baseBuildingCount p = 0 ∧ (p.units ≠ [] ∨ p.buildings ≠ [])) →
      ∃ e, validateAndReduce resources waterdrops players = .error e) ∧
    ((∀ p ∈ players, baseBuildingCount p = 0 → p.units = [] ∧ p.buildings = []) →
      validateAndReduce resources waterdrops players =
        (if (players.filter fun p => decide (0 < baseBuildingCount p)).length ≤ 1 then
          .error .notEnoughPlayers
        else
          .ok resources waterdrops (players.filter fun p => decide (0 < baseBuildingCount p)))) := by
  have hlen : ¬(resources.length < 1) := by
    cases resources
    · exact absurd rfl hres
    · simp
  constructor
  · intro h
    rcases reducePlayers_error players h with ⟨e, he⟩
    refine ⟨e, ?_⟩
    unfold validateAndReduce
    rw [if_neg hlen, he]
  · intro h
    unfold validateAndReduce
    rw [if_neg hlen, reducePlayers_ok players h]

/-- Witness for spawn_post_pass_validation: eight empty player slots leave
no live player, which the pass rejects. -/
theorem spawn_post_pass_validation_witness :
    validateAndReduce [⟨0, 0, 0⟩] [] initialPlayers = .error .notEnoughPlayers := by
  have h := (spawn_post_pass_validation [⟨0, 0, 0⟩] [] initialPlayers
    (by decide)).2 (by decide)
  exact h.trans (by decide)

/-! ## C5: shape classification -/

/-- C5: for every tile, index 0 classifies as completely accessible, an
index strictly between 0 and 49 as completely solid, and an index of at
least 49 as the diagonal shape selected from the fixed lookup table indexed
by the low three flag bits. -/
theorem tile_shape_classification (t : Tile) :
    t.GetType =
      (if t.index = 0 then TileType.completelyAccessible
       else if t.index < 49 then TileType.completelySolid
       else [TileType.solidAtUpperLeft, TileType.solidAtUpperRight,
             TileType.solidAtLowerLeft, TileType.solidAtLowerRight,
             TileType.solidAtLowerRight, TileType.solidAtUpperRight,
             TileType.solidAtLowerLeft, TileType.solidAtUpperLeft].getD
               (t.flags &&& 0b111) TileType.completelyAccessible) := by
  unfold Tile.GetType Tile.IsDiagonal
  by_cases h0 : t.index = 0
  · simp [h0]
  · by_cases h1 : t.index < 49
    · have h2 : ¬(FIRST_DIAGONAL_TILE_TYPE ≤ t.index) := by
        unfold FIRST_DIAGONAL_TILE_TYPE; omega
      simp [h0, h1, h2]
    · have h2 : FIRST_DIAGONAL_TILE_TYPE ≤ t.index := by
        unfold FIRST_DIAGONAL_TILE_TYPE; omega
      simp [h0, h1, h2, FlagLookupTable]

/-! ## C6: orientation vectors and mirroring -/

/-- C6: for every tile, the up-vector follows the eight-entry table over the
low three flag bits, the right-vector is the up-vector rotated a quarter
turn (minus uy, ux), a tile is mirrored exactly when the population count of
the low three flag bits is odd, and the eight pairs of up-vector and
mirroring produced by the eight flag values are pairwise distinct. -/
theorem tile_orientation_vectors (t : Tile) :
    (t.flags &&& 0b111 = 0 → t.GetUpVector = (0, -1)) ∧
    (t.flags &&& 0b111 = 1 → t.GetUpVector = (-1, 0)) ∧
    (t.flags &&& 0b111 = 2 → t.GetUpVector = (1, 0)) ∧
    (t.flags &&& 0b111 = 3 → t.GetUpVector = (0, 1)) ∧
    (t.flags &&& 0b111 = 4 → t.GetUpVector = (0, 1)) ∧
    (t.flags &&& 0b111 = 5 → t.GetUpVector = (1, 0)) ∧
    (t.flags &&& 0b111 = 6 → t.GetUpVector = (-1, 0)) ∧
    (t.flags &&& 0b111 = 7 → t.GetUpVector = (0, -1)) ∧
    t.GetRightVector = (-(t.GetUpVector).2, (t.GetUpVector).1) ∧
    (t.IsMirrored = true ↔ PopCount (t.flags &&& 0b111) % 2 = 1) ∧
    (((List.range 8).map fun f =>
        (Tile.GetUpVector ⟨0, f, none⟩, Tile.IsMirrored ⟨0, f, none⟩)).Pairwise (· ≠ ·)) := by
  refine ⟨?_, ?_, ?_, ?_, ?_, ?_, ?_, ?_, ?_, ?_, ?_⟩
  · intro h; simp [Tile.GetUpVector, h]
  · intro h; simp [Tile.GetUpVector, h]
  · intro h; simp [Tile.GetUpVector, h]
  · intro h; simp [Tile.GetUpVector, h]
  · intro h; simp [Tile.GetUpVector, h]
  · intro h; simp [Tile.GetUpVector, h]
  · intro h; simp [Tile.GetUpVector, h]
  · intro h; simp [Tile.GetUpVector, h]
  · rcases hu : t.GetUpVector with ⟨a, b⟩
    simp [Tile.GetRightVector, hu]
  · simp [Tile.IsMirrored]
  · decide

/-! ## The run collector: characterization lemmas -/

/-- The collected pairs are exactly the maximal runs of the predicate within
the scanned interval, relative to the pending state. -/
theorem collect_mem (p : Nat → Bool) :
    ∀ fuel x pending, pendingInv p x pending → ∀ b e,
      ((b, e) ∈ collect p fuel x pending ↔
        (b < e ∧ e < x + fuel ∧ (∀ i, b ≤ i → i < e → p i = true) ∧ p e = false ∧
          runStart p x pending b)) := by
  intro fuel
  induction fuel with
  | zero =>
    intro x pending hinv b e
    simp only [collect, List.not_mem_nil, false_iff]
    rintro ⟨hbe, hlt, hall, hpe, hstart⟩
    cases pending with
    | none =>
      simp only [runStart] at hstart
      omega
    | some b0 =>
      obtain ⟨hb0x, hrun⟩ := hinv
      simp only [runStart] at hstart
      rcases hstart with rfl | ⟨hxb, _⟩
      · have hpt : p e = true := hrun e (by omega) (by omega)
        rw [hpt] at hpe
        exact Bool.noConfusion hpe
      · omega
  | succ fuel ih =>
    intro x pending hinv b e
    cases hpx : p x with
    | true =>
      rw [show collect p (fuel + 1) x pending =
            collect p fuel (x + 1) (some (pending.getD x)) from by
        simp [collect, hpx]]
      rw [ih (x + 1) _ ?inv]
      case inv =>
        cases pending with
        | none =>
          refine ⟨by simp, ?_⟩
          intro i h1 h2
          simp only [Option.getD_none] at h1
          have : i = x := by omega
          subst this
          exact hpx
        | some b0 =>
          obtain ⟨h1, h2⟩ := hinv
          refine ⟨by simp only [Option.getD_some]; omega, ?_⟩
          intro i hi1 hi2
          simp only [Option.getD_some] at hi1
          rcases Nat.lt_or_ge i x with hlt | hge
          · exact h2 i hi1 hlt
          · have : i = x := by omega
            subst this
            exact hpx
      cases pending with
      | none =>
        simp only [runStart, Option.getD_none]
        constructor
        · rintro ⟨h1, h2, h3, h4, h5⟩
          refine ⟨h1, by omega, h3, h4, ?_⟩
          rcases h5 with rfl | ⟨hxb, hpb⟩
          · exact ⟨Nat.le_refl _, Or.inl rfl⟩
          · exact ⟨by omega, Or.inr hpb⟩
        · rintro ⟨h1, h2, h3, h4, hxb, h5⟩
          refine ⟨h1, by omega, h3, h4, ?_⟩
          rcases h5 with rfl | hpb
          · exact Or.inl rfl
          · rcases Nat.eq_or_lt_of_le hxb with rfl | hlt
            · exact Or.inl rfl
            · exact Or.inr ⟨by omega, hpb⟩
      | some b0 =>
        obtain ⟨hb0x, hrun⟩ := hinv
        simp only [runStart, Option.getD_some]
        constructor
        · rintro ⟨h1, h2, h3, h4, h5⟩
          refine ⟨h1, by omega, h3, h4, ?_⟩
          rcases h5 with rfl | ⟨hxb, hpb⟩
          · exact Or.inl rfl
          · exact Or.inr ⟨by omega, hpb⟩
        · rintro ⟨h1, h2, h3, h4, h5⟩
          refine ⟨h1, by omega, h3, h4, ?_⟩
          rcases h5 with rfl | ⟨hxb, hpb⟩
          · exact Or.inl rfl
          · rcases Nat.eq_or_lt_of_le hxb with heq | hlt
            · exfalso
              have hpt : p (b - 1) = true := hrun (b - 1) (by omega) (by omega)
              rw [hpt] at hpb
              exact Bool.noConfusion hpb
            · exact Or.inr ⟨by omega, hpb⟩
    | false =>
      cases pending with
      | none =>
        rw [show collect p (fuel + 1) x none = collect p fuel (x + 1) none from by
          simp [collect, hpx]]
        rw [ih (x + 1) none trivial]
        simp only [runStart]
        constructor
        · rintro ⟨h1, h2, h3, h4, hxb, h5⟩
          refine ⟨h1, by omega, h3, h4, by omega, ?_⟩
          rcases h5 with rfl | hpb
          · exact Or.inr (by simpa using hpx)
          · exact Or.inr hpb
        · rintro ⟨h1, h2, h3, h4, hxb, h5⟩
          have hbx : b ≠ x := by
            rintro rfl
            have : p b = true := h3 b (Nat.le_refl _) h1
            rw [this] at hpx
            exact Bool.noConfusion hpx
          refine ⟨h1, by omega, h3, h4, by omega, ?_⟩
          rcases h5 with rfl | hpb
          · exact absurd rfl hbx
          · exact Or.inr hpb
      | some b0 =>
        obtain ⟨hb0x, hrun⟩ := hinv
        rw [show collect p (fuel + 1) x (some b0) =
              (b0, x) :: collect p fuel (x + 1) none from by
          simp [collect, hpx]]
        rw [List.mem_cons, ih (x + 1) none trivial]
        simp only [runStart, Prod.mk.injEq]
        constructor
        · rintro (⟨rfl, rfl⟩ | ⟨h1, h2, h3, h4, hxb, h5⟩)
          · exact ⟨hb0x, by omega, hrun, hpx, Or.inl rfl⟩
          · refine ⟨h1, by omega, h3, h4, ?_⟩
            rcases h5 with rfl | hpb
            · exact Or.inr ⟨by omega, by simpa using hpx⟩
            · exact Or.inr ⟨by omega, hpb⟩
        · rintro ⟨h1, h2, h3, h4, h5⟩
          rcases h5 with rfl | ⟨hxb, hpb⟩
          · left
            refine ⟨rfl, ?_⟩
            rcases Nat.lt_trichotomy e x with hlt | rfl | hgt
            · exfalso
              have : p e = true := hrun e (by omega) hlt
              rw [this] at h4
              exact Bool.noConfusion h4
            · rfl
            · exfalso
              have : p x = true := h3 x (by omega) hgt
              rw [this] at hpx
              exact Bool.noConfusion hpx
          · right
            have hbx : b ≠ x := by
              rintro rfl
              have : p b = true := h3 b (Nat.le_refl _) h1
              rw [this] at hpx
              exact Bool.noConfusion hpx
            exact ⟨h1, by omega, h3, h4, by omega, Or.inr hpb⟩

/-- Every collected run ends at or after the scan position. -/
theorem collect_e_lower (p : Nat → Bool) :
    ∀ fuel x pending b e, (b, e) ∈ collect p fuel x pending → x ≤ e := by
  intro fuel
  induction fuel with
  | zero =>
    intro x pending b e h
    simp [collect] at h
  | succ fuel ih =>
    intro x pending b e h
    cases hpx : p x with
    | true =>
      rw [show collect p (fuel + 1) x pending =
            collect p fuel (x + 1) (some (pending.getD x)) from by
        simp [collect, hpx]] at h
      have := ih _ _ _ _ h
      omega
    | false =>
      cases pending with
      | none =>
        rw [show collect p (fuel + 1) x none = collect p fuel (x + 1) none from by
          simp [collect, hpx]] at h
        have := ih _ _ _ _ h
        omega
      | some b0 =>
        rw [show collect p (fuel + 1) x (some b0) =
              (b0, x) :: collect p fuel (x + 1) none from by
          simp [collect, hpx]] at h
        rcases List.mem_cons.mp h with heq | hmem
        · cases heq
          omega
        · have := ih _ _ _ _ hmem
          omega

/-- The collected runs are listed with strictly increasing run ends, so the
list has no duplicate. -/
theorem collect_pairwise (p : Nat → Bool) :
    ∀ fuel x pending,
      List.Pairwise (fun r s : Nat × Nat => r.2 < s.2) (collect p fuel x pending) := by
  intro fuel
  induction fuel with
  | zero =>
    intro x pending
    simp [collect]
  | succ fuel ih =>
    intro x pending
    cases hpx : p x with
    | true =>
      rw [show collect p (fuel + 1) x pending =
            collect p fuel (x + 1) (some (pending.getD x)) from by
        simp [collect, hpx]]
      exact ih _ _
    | false =>
      cases pending with
      | none =>
        rw [show collect p (fuel + 1) x none = collect p fuel (x + 1) none from by
          simp [collect, hpx]]
        exact ih _ _
      | some b0 =>
        rw [show collect p (fuel + 1) x (some b0) =
              (b0, x) :: collect p fuel (x + 1) none from by
          simp [collect, hpx]]
        refine List.Pairwise.cons ?_ (ih _ _)
        intro s hs
        have := collect_e_lower p fuel (x + 1) none s.1 s.2 hs
        simpa using by omega

/-- The collected runs have no duplicate. -/
theorem collect_nodup (p : Nat → Bool) (fuel x : Nat) (pending : Option Nat) :
    (collect p fuel x pending).Nodup :=
  (collect_pairwise p fuel x pending).imp fun h heq => by
    rw [heq] at h
    exact lt_irrefl _ h

/-! ## Decomposition of the cardinal sweeps into run collections -/

/-- The Right bucket of the horizontal inner loop collects the
upwards-facing runs, each emitted with its start at the run begin. -/
theorem horizontalScan_right (tiles : List Tile) (width y : Nat) :
    ∀ fuel x st,
      (horizontalScan tiles width y fuel x st).right =
        st.right ++ ((collect (upwardsPred tiles width y) fuel x st.upwardsBorderStart).map
          fun r => (⟨(r.1 : Int), (y : Int), (r.2 : Int) - (r.1 : Int)⟩ : BorderLine)) := by
  intro fuel
  induction fuel with
  | zero => intro x st; simp [horizontalScan, collect]
  | succ fuel ih =>
    intro x st
    rw [show horizontalScan tiles width y (fuel + 1) x st =
          horizontalScan tiles width y fuel (x + 1) (horizontalStep tiles width y x st) from rfl]
    rw [ih]
    cases hup : upwardsPred tiles width y x <;>
      rcases hpu : st.upwardsBorderStart with _ | b <;>
        cases hdown : downwardsPred tiles width y x <;>
          rcases hpd : st.downwardsBorderStart with _ | b' <;>
            simp [horizontalStep, collect, hup, hpu, hdown, hpd, List.append_assoc]

/-- The Left bucket of the horizontal inner loop collects the
downwards-facing runs, each emitted with its start at the run end. -/
theorem horizontalScan_left (tiles : List Tile) (width y : Nat) :
    ∀ fuel x st,
      (horizontalScan tiles width y fuel x st).left =
        st.left ++ ((collect (downwardsPred tiles width y) fuel x st.downwardsBorderStart).map
          fun r => (⟨(r.2 : Int), (y : Int), (r.2 : Int) - (r.1 : Int)⟩ : BorderLine)) := by
  intro fuel
  induction fuel with
  | zero => intro x st; simp [horizontalScan, collect]
  | succ fuel ih =>
    intro x st
    rw [show horizontalScan tiles width y (fuel + 1) x st =
          horizontalScan tiles width y fuel (x + 1) (horizontalStep tiles width y x st) from rfl]
    rw [ih]
    cases hup : upwardsPred tiles width y x <;>
      rcases hpu : st.upwardsBorderStart with _ | b <;>
        cases hdown : downwardsPred tiles width y x <;>
          rcases hpd : st.downwardsBorderStart with _ | b' <;>
            simp [horizontalStep, collect, hup, hpu, hdown, hpd, List.append_assoc]

/-- The Up bucket of the vertical inner loop collects the left-facing runs,
each emitted with its start at the run end. -/
theorem verticalScan_up (tiles : List Tile) (width height x : Nat) :
    ∀ fuel y st,
      (verticalScan tiles width height x fuel y st).up =
        st.up ++ ((collect (leftPred tiles width height x) fuel y st.leftBorderStart).map
          fun r => (⟨(x : Int), (r.2 : Int), (r.2 : Int) - (r.1 : Int)⟩ : BorderLine)) := by
  intro fuel
  induction fuel with
  | zero => intro y st; simp [verticalScan, collect]
  | succ fuel ih =>
    intro y st
    rw [show verticalScan tiles width height x (fuel + 1) y st =
          verticalScan tiles width height x fuel (y + 1)
            (verticalStep tiles width height x y st) from rfl]
    rw [ih]
    cases hl : leftPred tiles width height x y <;>
      rcases hpl : st.leftBorderStart with _ | b <;>
        cases hr : rightPred tiles width height x y <;>
          rcases hpr : st.rightBorderStart with _ | b' <;>
            simp [verticalStep, collect, hl, hpl, hr, hpr, List.append_assoc]

/-- The Down bucket of the vertical inner loop collects the right-facing
runs, each emitted with its start at the run begin. -/
theorem verticalScan_down (tiles : List Tile) (width height x : Nat) :
    ∀ fuel y st,
      (verticalScan tiles width height x fuel y st).down =
        st.down ++ ((collect (rightPred tiles width height x) fuel y st.rightBorderStart).map
          fun r => (⟨(x : Int), (r.1 : Int), (r.2 : Int) - (r.1 : Int)⟩ : BorderLine)) := by
  intro fuel
  induction fuel with
  | zero => intro y st; simp [verticalScan, collect]
  | succ fuel ih =>
    intro y st
    rw [show verticalScan tiles width height x (fuel + 1) y st =
          verticalScan tiles width height x fuel (y + 1)
            (verticalStep tiles width height x y st) from rfl]
    rw [ih]
    cases hl : leftPred tiles width height x y <;>
      rcases hpl : st.leftBorderStart with _ | b <;>
        cases hr : rightPred tiles width height x y <;>
          rcases hpr : st.rightBorderStart with _ | b' <;>
            simp [verticalStep, collect, hl, hpl, hr, hpr, List.append_assoc]

/-- The Right bucket of the horizontal outer loop is the concatenation of
the per-line run collections. -/
theorem horizontalSweep_right (tiles : List Tile) (width : Nat) :
    ∀ fuel y st,
      (horizontalSweep tiles width fuel y st).right =
        st.right ++ (List.range' y fuel).flatMap fun y' =>
          (collect (upwardsPred tiles width y') (width - 1) 1 none).map
            fun r => (⟨(r.1 : Int), (y' : Int), (r.2 : Int) - (r.1 : Int)⟩ : BorderLine) := by
  intro fuel
  induction fuel with
  | zero => intro y st; simp [horizontalSweep]
  | succ fuel ih =>
    intro y st
    rw [show horizontalSweep tiles width (fuel + 1) y st =
          horizontalSweep tiles width fuel (y + 1) (horizontalLine tiles width y st) from rfl]
    rw [ih]
    rw [show List.range' y (fuel + 1) = y :: List.range' (y + 1) fuel from rfl]
    rw [List.flatMap_cons]
    unfold horizontalLine
    rw [horizontalScan_right]
    simp [List.append_assoc]

/-- The Left bucket of the horizontal outer loop is the concatenation of the
per-line run collections. -/
theorem horizontalSweep_left (tiles : List Tile) (width : Nat) :
    ∀ fuel y st,
      (horizontalSweep tiles width fuel y st).left =
        st.left ++ (List.range' y fuel).flatMap fun y' =>
          (collect (downwardsPred tiles width y') (width - 1) 1 none).map
            fun r => (⟨(r.2 : Int), (y' : Int), (r.2 : Int) - (r.1 : Int)⟩ : BorderLine) := by
  intro fuel
  induction fuel with
  | zero => intro y st; simp [horizontalSweep]
  | succ fuel ih =>
    intro y st
    rw [show horizontalSweep tiles width (fuel + 1) y st =
          horizontalSweep tiles width fuel (y + 1) (horizontalLine tiles width y st) from rfl]
    rw [ih]
    rw [show List.range' y (fuel + 1) = y :: List.range' (y + 1) fuel from rfl]
    rw [List.flatMap_cons]
    unfold horizontalLine
    rw [horizontalScan_left]
    simp [List.append_assoc]

/-- The Up bucket of the vertical outer loop is the concatenation of the
per-column run collections. -/
theorem verticalSweep_up (tiles : List Tile) (width height : Nat) :
    ∀ fuel x st,
      (verticalSweep tiles width height fuel x st).up =
        st.up ++ (List.range' x fuel).flatMap fun x' =>
          (collect (leftPred tiles width height x') (height - 1) 1 none).map
            fun r => (⟨(x' : Int), (r.2 : Int), (r.2 : Int) - (r.1 : Int)⟩ : BorderLine) := by
  intro fuel
  induction fuel with
  | zero => intro x st; simp [verticalSweep]
  | succ fuel ih =>
    intro x st
    rw [show verticalSweep tiles width height (fuel + 1) x st =
          verticalSweep tiles width height fuel (x + 1)
            (verticalLine tiles width height x st) from rfl]
    rw [ih]
    rw [show List.range' x (fuel + 1) = x :: List.range' (x + 1) fuel from rfl]
    rw [List.flatMap_cons]
    unfold verticalLine
    rw [verticalScan_up]
    simp [List.append_assoc]

/-- The Down bucket of the vertical outer loop is the concatenation of the
per-column run collections. -/
theorem verticalSweep_down (tiles : List Tile) (width height : Nat) :
    ∀ fuel x st,
      (verticalSweep tiles width height fuel x st).down =
        st.down ++ (List.range' x fuel).flatMap fun x' =>
          (collect (rightPred tiles width height x') (height - 1) 1 none).map
            fun r => (⟨(x' : Int), (r.1 : Int), (r.2 : Int) - (r.1 : Int)⟩ : BorderLine) := by
  intro fuel
  induction fuel with
  | zero => intro x st; simp [verticalSweep]
  | succ fuel ih =>
    intro x st
    rw [show verticalSweep tiles width height (fuel + 1) x st =
          verticalSweep tiles width height fuel (x + 1)
            (verticalLine tiles width height x st) from rfl]
    rw [ih]
    rw [show List.range' x (fuel + 1) = x :: List.range' (x + 1) fuel from rfl]
    rw [List.flatMap_cons]
    unfold verticalLine
    rw [verticalScan_down]
    simp [List.append_assoc]

/-- The bounds every collected run of a cardinal scan line satisfies. -/
theorem collect_run_bounds {p : Nat → Bool} {n b e : Nat}
    (h : (b, e) ∈ collect p (n - 1) 1 none) :
    1 ≤ b ∧ b < e ∧ e ≤ n - 1 := by
  rw [collect_mem p (n - 1) 1 none trivial] at h
  obtain ⟨h1, h2, _, _, h5⟩ := h
  simp only [runStart] at h5
  omega

/-! ## C8: coordinates of the emitted border segments -/

/-- C8 counterexample: a SolidAtLowerLeft diagonal tile in the outer-ring
corner (0, 0) of a 3 by 3 environment layer makes the diagonal sweep emit a
DownRight segment starting at (0, 0), outside the box [1, 2] by [1, 2], so
the claimed bound fails for the diagonal buckets. -/
theorem diagonal_border_outside_box :
    ∃ seg ∈ (ComputeBorderOfLayer 3 3 diagonalCornerLayer).downRight,
      ¬(1 ≤ seg.startX ∧ seg.startX ≤ (3 : Int) - 1 ∧
        1 ≤ seg.startY ∧ seg.startY ≤ (3 : Int) - 1) := by
  decide

/-- C8 (amended): every border segment in the four cardinal buckets starts
inside the box [1, width-1] by [1, height-1]; the outer-ring guards of the
cardinal sweeps enforce it (the diagonal buckets are not so bounded, see the
counterexample). -/
theorem cardinal_borders_inside_box (width height : Nat) (tiles : List Tile) :
    ∀ seg : BorderLine,
      seg ∈ (ComputeBorderOfLayer width height tiles).left ∨
      seg ∈ (ComputeBorderOfLayer width height tiles).right ∨
      seg ∈ (ComputeBorderOfLayer width height tiles).up ∨
      seg ∈ (ComputeBorderOfLayer width height tiles).down →
      1 ≤ seg.startX ∧ seg.startX ≤ (width : Int) - 1 ∧
      1 ≤ seg.startY ∧ seg.startY ≤ (height : Int) - 1 := by
  intro seg h
  rcases h with h | h | h | h
  · rw [show (ComputeBorderOfLayer width height tiles).left =
        (horizontalSweep tiles width (height - 1) 1 ⟨none, none, [], []⟩).left from rfl,
      horizontalSweep_left] at h
    simp only [List.nil_append, List.mem_flatMap, List.mem_map] at h
    obtain ⟨y', hy', r, hr, heq⟩ := h
    subst heq
    rw [List.mem_range'_1] at hy'
    obtain ⟨hb1, hb2, hb3⟩ := collect_run_bounds hr
    refine ⟨?_, ?_, ?_, ?_⟩ <;> dsimp only <;> omega
  · rw [show (ComputeBorderOfLayer width height tiles).right =
        (horizontalSweep tiles width (height - 1) 1 ⟨none, none, [], []⟩).right from rfl,
      horizontalSweep_right] at h
    simp only [List.nil_append, List.mem_flatMap, List.mem_map] at h
    obtain ⟨y', hy', r, hr, heq⟩ := h
    subst heq
    rw [List.mem_range'_1] at hy'
    obtain ⟨hb1, hb2, hb3⟩ := collect_run_bounds hr
    refine ⟨?_, ?_, ?_, ?_⟩ <;> dsimp only <;> omega
  · rw [show (ComputeBorderOfLayer width height tiles).up =
        (verticalSweep tiles width height (width - 1) 1 ⟨none, none, [], []⟩).up from rfl,
      verticalSweep_up] at h
    simp only [List.nil_append, List.mem_flatMap, List.mem_map] at h
    obtain ⟨x', hx', r, hr, heq⟩ := h
    subst heq
    rw [List.mem_range'_1] at hx'
    obtain ⟨hb1, hb2, hb3⟩ := collect_run_bounds hr
    refine ⟨?_, ?_, ?_, ?_⟩ <;> dsimp only <;> omega
  · rw [show (ComputeBorderOfLayer width height tiles).down =
        (verticalSweep tiles width height (width - 1) 1 ⟨none, none, [], []⟩).down from rfl,
      verticalSweep_down] at h
    simp only [List.nil_append, List.mem_flatMap, List.mem_map] at h
    obtain ⟨x', hx', r, hr, heq⟩ := h
    subst heq
    rw [List.mem_range'_1] at hx'
    obtain ⟨hb1, hb2, hb3⟩ := collect_run_bounds hr
    refine ⟨?_, ?_, ?_, ?_⟩ <;> dsimp only <;> omega

/-- Witness for cardinal_borders_inside_box: the Right-bucket segment of the
3 by 3 map with one solid centre tile. -/
theorem cardinal_borders_inside_box_witness :
    1 ≤ (⟨1, 1, 1⟩ : BorderLine).startX ∧
    (⟨1, 1, 1⟩ : BorderLine).startX ≤ ((3 : Nat) : Int) - 1 ∧
    1 ≤ (⟨1, 1, 1⟩ : BorderLine).startY ∧
    (⟨1, 1, 1⟩ : BorderLine).startY ≤ ((3 : Nat) : Int) - 1 :=
  cardinal_borders_inside_box 3 3 solidCenterLayer ⟨1, 1, 1⟩
    (Or.inr (Or.inl (by decide)))

/-! ## C9: the cardinal sweeps emit exactly the maximal runs -/

/-- An injective image of a member of a duplicate-free list occurs exactly
once in the mapped list. -/
theorem count_map_conv {l : List (Nat × Nat)} {r : Nat × Nat}
    (f : Nat × Nat → BorderLine) (hinj : Function.Injective f)
    (hnd : l.Nodup) (hr : r ∈ l) : (l.map f).count (f r) = 1 := by
  rw [List.count_map_of_injective _ _ hinj]
  exact List.count_eq_one_of_mem hnd hr

/-- The collected runs of a scan over [1, n) are exactly the maximal runs of
the predicate inside [1, n). -/
theorem collect_iff_maximal (p : Nat → Bool) (n b e : Nat) :
    (b, e) ∈ collect p (n - 1) 1 none ↔ IsMaximalRun p 1 n b e := by
  rw [collect_mem p (n - 1) 1 none trivial]
  unfold IsMaximalRun runStart
  constructor
  · rintro ⟨h1, h2, h3, h4, h5, h6⟩
    exact ⟨h5, h1, by omega, h3, h4, h6⟩
  · rintro ⟨h0, h1, h2, h3, h4, h5⟩
    exact ⟨h1, by omega, h3, h4, h0, h5⟩

/-- C9: each scan line of the cardinal sweeps emits exactly one segment per
maximal run of its shared-edge predicate, of length run end minus run begin,
with the start coordinate following the direction convention: the Right
bucket starts at the run begin, the Left bucket at the run end, the Up
bucket at the run end, and the Down bucket at the run begin (the fixed
coordinate being the scan line y or the scan column x). -/
theorem cardinal_sweep_maximal_runs (tiles : List Tile) (width height y x : Nat) :
    ((horizontalLine tiles width y ⟨none, none, [], []⟩).right =
      (collect (upwardsPred tiles width y) (width - 1) 1 none).map
        fun r => (⟨(r.1 : Int), (y : Int), (r.2 : Int) - (r.1 : Int)⟩ : BorderLine)) ∧
    ((horizontalLine tiles width y ⟨none, none, [], []⟩).left =
      (collect (downwardsPred tiles width y) (width - 1) 1 none).map
        fun r => (⟨(r.2 : Int), (y : Int), (r.2 : Int) - (r.1 : Int)⟩ : BorderLine)) ∧
    ((verticalLine tiles width height x ⟨none, none, [], []⟩).up =
      (collect (leftPred tiles width height x) (height - 1) 1 none).map
        fun r => (⟨(x : Int), (r.2 : Int), (r.2 : Int) - (r.1 : Int)⟩ : BorderLine)) ∧
    ((verticalLine tiles width height x ⟨none, none, [], []⟩).down =
      (collect (rightPred tiles width height x) (height - 1) 1 none).map
        fun r => (⟨(x : Int), (r.1 : Int), (r.2 : Int) - (r.1 : Int)⟩ : BorderLine)) ∧
    (∀ b e, (b, e) ∈ collect (upwardsPred tiles width y) (width - 1) 1 none ↔
      IsMaximalRun (upwardsPred tiles width y) 1 width b e) ∧
    (∀ b e, (b, e) ∈ collect (downwardsPred tiles width y) (width - 1) 1 none ↔
      IsMaximalRun (downwardsPred tiles width y) 1 width b e) ∧
    (∀ b e, (b, e) ∈ collect (leftPred tiles width height x) (height - 1) 1 none ↔
      IsMaximalRun (leftPred tiles width height x) 1 height b e) ∧
    (∀ b e, (b, e) ∈ collect (rightPred tiles width height x) (height - 1) 1 none ↔
      IsMaximalRun (rightPred tiles width height x) 1 height b e) ∧
    (∀ b e, IsMaximalRun (upwardsPred tiles width y) 1 width b e →
      (horizontalLine tiles width y ⟨none, none, [], []⟩).right.count
        ⟨(b : Int), (y : Int), (e : Int) - (b : Int)⟩ = 1) ∧
    (∀ b e, IsMaximalRun (downwardsPred tiles width y) 1 width b e →
      (horizontalLine tiles width y ⟨none, none, [], []⟩).left.count
        ⟨(e : Int), (y : Int), (e : Int) - (b : Int)⟩ = 1) ∧
    (∀ b e, IsMaximalRun (leftPred tiles width height x) 1 height b e →
      (verticalLine tiles width height x ⟨none, none, [], []⟩).up.count
        ⟨(x : Int), (e : Int), (e : Int) - (b : Int)⟩ = 1) ∧
    (∀ b e, IsMaximalRun (rightPred tiles width height x) 1 height b e →
      (verticalLine tiles width height x ⟨none, none, [], []⟩).down.count
        ⟨(x : Int), (b : Int), (e : Int) - (b : Int)⟩ = 1) := by
  have eqR : (horizontalLine tiles width y ⟨none, none, [], []⟩).right =
      (collect (upwardsPred tiles width y) (width - 1) 1 none).map
        fun r => (⟨(r.1 : Int), (y : Int), (r.2 : Int) - (r.1 : Int)⟩ : BorderLine) := by
    unfold horizontalLine
    rw [horizontalScan_right]
    rfl
  have eqL : (horizontalLine tiles width y ⟨none, none, [], []⟩).left =
      (collect (downwardsPred tiles width y) (width - 1) 1 none).map
        fun r => (⟨(r.2 : Int), (y : Int), (r.2 : Int) - (r.1 : Int)⟩ : BorderLine) := by
    unfold horizontalLine
    rw [horizontalScan_left]
    rfl
  have eqU : (verticalLine tiles width height x ⟨none, none, [], []⟩).up =
      (collect (leftPred tiles width height x) (height - 1) 1 none).map
        fun r => (⟨(x : Int), (r.2 : Int), (r.2 : Int) - (r.1 : Int)⟩ : BorderLine) := by
    unfold verticalLine
    rw [verticalScan_up]
    rfl
  have eqD : (verticalLine tiles width height x ⟨none, none, [], []⟩).down =
      (collect (rightPred tiles width height x) (height - 1) 1 none).map
        fun r => (⟨(x : Int), (r.1 : Int), (r.2 : Int) - (r.1 : Int)⟩ : BorderLine) := by
    unfold verticalLine
    rw [verticalScan_down]
    rfl
  have hinjR : Function.Injective
      (fun r : Nat × Nat => (⟨(r.1 : Int), (y : Int), (r.2 : Int) - (r.1 : Int)⟩ : BorderLine)) := by
    rintro ⟨r1, r2⟩ ⟨s1, s2⟩ h
    simp only [BorderLine.mk.injEq] at h
    simp only [Prod.mk.injEq]
    omega
  have hinjL : Function.Injective
      (fun r : Nat × Nat => (⟨(r.2 : Int), (y : Int), (r.2 : Int) - (r.1 : Int)⟩ : BorderLine)) := by
    rintro ⟨r1, r2⟩ ⟨s1, s2⟩ h
    simp only [BorderLine.mk.injEq] at h
    simp only [Prod.mk.injEq]
    omega
  have hinjU : Function.Injective
      (fun r : Nat × Nat => (⟨(x : Int), (r.2 : Int), (r.2 : Int) - (r.1 : Int)⟩ : BorderLine)) := by
    rintro ⟨r1, r2⟩ ⟨s1, s2⟩ h
    simp only [BorderLine.mk.injEq] at h
    simp only [Prod.mk.injEq]
    omega
  have hinjD : Function.Injective
      (fun r : Nat × Nat => (⟨(x : Int), (r.1 : Int), (r.2 : Int) - (r.1 : Int)⟩ : BorderLine)) := by
    rintro ⟨r1, r2⟩ ⟨s1, s2⟩ h
    simp only [BorderLine.mk.injEq] at h
    simp only [Prod.mk.injEq]
    omega
  refine ⟨eqR, eqL, eqU, eqD,
    fun b e => collect_iff_maximal _ width b e,
    fun b e => collect_iff_maximal _ width b e,
    fun b e => collect_iff_maximal _ height b e,
    fun b e => collect_iff_maximal _ height b e, ?_, ?_, ?_, ?_⟩
  · intro b e hmax
    rw [eqR]
    exact count_map_conv _ hinjR (collect_nodup _ _ _ _)
      ((collect_iff_maximal _ width b e).mpr hmax)
  · intro b e hmax
    rw [eqL]
    exact count_map_conv _ hinjL (collect_nodup _ _ _ _)
      ((collect_iff_maximal _ width b e).mpr hmax)
  · intro b e hmax
    rw [eqU]
    exact count_map_conv _ hinjU (collect_nodup _ _ _ _)
      ((collect_iff_maximal _ height b e).mpr hmax)
  · intro b e hmax
    rw [eqD]
    exact count_map_conv _ hinjD (collect_nodup _ _ _ _)
      ((collect_iff_maximal _ height b e).mpr hmax)

end TiledMapConverter
